import Mathlib

/-!
Verification development for the JARVIS kernel-architecture microservices.

The Python services are shallowly embedded: each Python dict used as a cache
becomes an insertion-ordered association list (unique keys), numeric fields
become Nat / Int / Rat, and the external collaborators (the Piper binary,
the sentence-transformer encoder, the CLIP encoder, the md5 fingerprint)
become explicit function parameters, following the design note that the core
logic depends only on the interfaces "synthesize - embed - transcribe".

Sources embedded here:
 - src/Piper/piper_server.py      (audio cache, /tts handler)
 - src/embedding_server.py        (embedding cache, encode_texts, /embed)
 - src/vision_server.py           (image-embedding cache, /embed/image)
 - src/gpu_monitor.py             (detect_models, get_recommendations, monitor_loop)
 - src/whisper_server_fixed.py   (/transcribe isFinal computation)
-/

/-! ## Python-dict model: insertion-ordered association lists -/

/-- Lookup in an insertion-ordered association list; models Python
dict membership test plus item access. -/
def lookupD {α : Type} : List (String × α) → String → Option α
  | [], _ => none
  | e :: r, k => if e.1 = k then some e.2 else lookupD r k

/-- Assignment d[k] = v on a Python dict: overwrite in place when the key
is present (keeping its position in insertion order), append otherwise. -/
def dictSet {α : Type} : List (String × α) → String → α → List (String × α)
  | [], k, v => [(k, v)]
  | e :: r, k, v => if e.1 = k then (k, v) :: r else e :: dictSet r k v

/-- Deletion del d[k] on a Python dict: remove the (unique) entry with key k. -/
def eraseKey {α : Type} : List (String × α) → String → List (String × α)
  | [], _ => []
  | e :: r, k => if e.1 = k then r else e :: eraseKey r k

/-! ## Piper TTS audio cache (src/Piper/piper_server.py) -/

/-- audio_cache maps a cache key to (audio_data, timestamp). Audio bytes are
modelled as a list of naturals, timestamps as naturals. -/
abbrev AudioCache : Type := List (String × List Nat × Nat)

/-- CACHE_MAX_SIZE = 50 in piper_server.py. -/
def CACHE_MAX_SIZE : Nat := 50

/-- CACHE_TTL_SECONDS = 300 in piper_server.py. -/
def CACHE_TTL_SECONDS : Nat := 300

/-- Python min(audio_cache.keys(), key=lambda k: audio_cache[k][1]) applied to
the entries: the first entry (in insertion order) whose timestamp is minimal.
Python min keeps the earliest element on ties, which this recursion mirrors by
preferring the head when its timestamp is less than or equal to the minimum of
the rest. -/
def minTs : List (String × List Nat × Nat) → Option (String × List Nat × Nat)
  | [] => none
  | e :: r =>
    match minTs r with
    | none => some e
    | some m => if e.2.2 ≤ m.2.2 then some e else some m

/-- PiperHandler._add_to_cache: evict the oldest-timestamp entry if the cache
holds at least CACHE_MAX_SIZE entries, then store (data, now) under key. -/
def addToCache (c : AudioCache) (k : String) (d : List Nat) (now : Nat) : AudioCache :=
  let c1 := if CACHE_MAX_SIZE ≤ c.length then
      match minTs c with
      | some m => eraseKey c m.1
      | none => c
    else c
  dictSet c1 k (d, now)

/-- PiperHandler._get_from_cache: a present entry younger than the TTL is a
hit (cache untouched); a present entry at or past the TTL is deleted and the
result is a miss; an absent key is a miss. Returns (result, new cache). -/
def getFromCache (c : AudioCache) (k : String) (now : Nat) :
    Option (List Nat) × AudioCache :=
  match lookupD c k with
  | some (d, ts) => if now - ts < CACHE_TTL_SECONDS then (some d, c) else (none, eraseKey c k)
  | none => (none, c)

/-! ## Piper /tts POST handler (do_POST in src/Piper/piper_server.py) -/

/-- The synthesis parameters of a /tts request. speaker_id arrives as an
integer, the three scales as floats (modelled as rationals). -/
structure TtsRequest where
  text : String
  speakerId : Nat
  lengthScale : ℚ
  noiseScale : ℚ
  noiseW : ℚ

/-- cache_key = f-string text_speaker_length_noise_noisew from do_POST. -/
def reqKey (r : TtsRequest) : String :=
  r.text ++ "_" ++ toString r.speakerId ++ "_" ++ toString r.lengthScale ++ "_" ++
    toString r.noiseScale ++ "_" ++ toString r.noiseW

/-- Observable outcome of a /tts request: 200 with WAV bytes, 400, or 500. -/
inductive TtsResponse where
  | ok (audio : List Nat)
  | badRequest
  | serverError
  deriving DecidableEq

/-- do_POST on /tts: empty text is a 400; then cache lookup; on a hit serve the
cached audio; on a miss call the Piper binary (the synth parameter, returning
none when the subprocess fails), store the result, and serve it. The third
component counts the invocations of the external binary during the request. -/
def handleTts (cache : AudioCache) (synth : TtsRequest → Option (List Nat))
    (r : TtsRequest) (now : Nat) : TtsResponse × AudioCache × Nat :=
  if r.text = "" then (.badRequest, cache, 0)
  else
    match getFromCache cache (reqKey r) now with
    | (some d, c') => (.ok d, c', 0)
    | (none, c') =>
      match synth r with
      | none => (.serverError, c', 1)
      | some audio => (.ok audio, addToCache c' (reqKey r) audio now, 1)

/-! ## Embedding server cache and encode_texts (src/embedding_server.py) -/

/-- CACHE_SIZE_LIMIT = 10000 in embedding_server.py. -/
def CACHE_SIZE_LIMIT : Nat := 10000

/-- manage_cache: when the dict has grown past CACHE_SIZE_LIMIT, delete the
first CACHE_SIZE_LIMIT // 5 keys in insertion order (the "oldest 20 percent"). -/
def manageCache {α : Type} (c : List (String × α)) : List (String × α) :=
  if CACHE_SIZE_LIMIT < c.length then c.drop (CACHE_SIZE_LIMIT / 5) else c

/-- encode_texts on a list of texts. hkey models get_cache_key (md5-based
fingerprint), enc models one sentence-transformer encoding. Mirrors the
source: scan the cache per text, encode the missing texts, cache them and run
manage_cache (when use_cache), and assemble the output per position from the
cached value or the fresh encoding. When use_cache is set and nothing is
missing, the source returns early with the cache untouched. The third
component is the texts_to_encode list handed to model.encode; the model is
invoked exactly when it is nonempty. -/
def encodeTexts {α : Type} (hkey : String → String) (enc : String → α)
    (cache : List (String × α)) (texts : List String) (useCache : Bool) :
    List α × List (String × α) × List String :=
  let cachedLookup : String → Option α := fun t => if useCache then lookupD cache (hkey t) else none
  let textsToEncode := texts.filter (fun t => (cachedLookup t).isNone)
  let result := texts.map (fun t =>
    match cachedLookup t with
    | some v => v
    | none => enc t)
  if useCache && textsToEncode.isEmpty then
    (result, cache, [])
  else
    let cache' := if useCache then
        manageCache (textsToEncode.foldl (fun c t => dictSet c (hkey t) (enc t)) cache)
      else cache
    (result, cache', textsToEncode)

/-- The texts field of a POST /embed body: a JSON string, a JSON array of
strings, or a value of another type. -/
inductive TextsField where
  | str (s : String)
  | arr (l : List String)
  | other

/-- Observable outcome of POST /embed: a 200 with the embeddings and their
count, or an error status with its message. -/
inductive EmbedOutcome (α : Type) where
  | success (embeddings : List α) (count : Nat)
  | failure (status : Nat) (msg : String)
  deriving DecidableEq

/-- The embed route handler: missing texts field is a 400; a string longer
than 10000 chars is a 400; a list of more than 1000 texts is a 400; another
type is a 400. Valid inputs are passed to encode_texts (list elements
truncated to 10000 chars first). Returns (response, new cache, texts sent to
the model). -/
def embedHandler {α : Type} (hkey : String → String) (enc : String → α)
    (cache : List (String × α)) (body : Option TextsField) (useCache : Bool) :
    EmbedOutcome α × List (String × α) × List String :=
  match body with
  | none => (.failure 400 "Missing texts field in request body", cache, [])
  | some (.str s) =>
    if 10000 < s.length then (.failure 400 "Text too long (max 10000 chars)", cache, [])
    else
      let r := encodeTexts hkey enc cache [s] useCache
      (.success r.1 r.1.length, r.2.1, r.2.2)
  | some (.arr l) =>
    if 1000 < l.length then (.failure 400 "Too many texts (max 1000)", cache, [])
    else
      let ts := l.map (fun t => t.take 10000)
      let r := encodeTexts hkey enc cache ts useCache
      (.success r.1 r.1.length, r.2.1, r.2.2)
  | some .other => (.failure 400 "texts must be string or array", cache, [])

/-! ## Vision server image-embedding cache (src/vision_server.py) -/

/-- CACHE_SIZE = 1000 in vision_server.py. The constant is defined at module
level but embed_image never consults it: insertions into self.cache perform no
eviction. -/
def CACHE_SIZE : Nat := 1000

/-- The embed_image route: empty image data is a 400; with use_cache, a key
hit returns the cached embedding marked cached=true; otherwise the CLIP
encoder (embedFn) runs and, with use_cache, the result is stored as a
VisionCacheEntry (embedding, timestamp) - with no size check against
CACHE_SIZE. Result: (some (embedding, cachedFlag) or none for the 400, new
cache). -/
def visionEmbedImage {α : Type} (hkey : String → String) (embedFn : String → α)
    (cache : List (String × α × Nat)) (imageData : String) (useCache : Bool) (now : Nat) :
    Option (α × Bool) × List (String × α × Nat) :=
  if imageData = "" then (none, cache)
  else
    match (if useCache then lookupD cache (hkey imageData) else none) with
    | some (v, _) => (some (v, true), cache)
    | none =>
      let emb := embedFn imageData
      (some (emb, false), if useCache then dictSet cache (hkey imageData) (emb, now) else cache)

/-! ## GPU monitor (src/gpu_monitor.py) -/

/-- The GpuStats dataclass snapshot. Floats become rationals, ints stay
integers; the process list is represented by the process names, which is the
only process attribute detect_models reads. -/
structure GpuStats where
  timestamp : Nat
  name : String
  gpu_id : Nat
  vram_total : Int
  vram_used : Int
  vram_free : Int
  vram_percent : ℚ
  gpu_utilization : Int
  memory_utilization : Int
  temperature : Int
  power_draw : ℚ
  power_limit : ℚ
  graphics_clock : Int
  memory_clock : Int
  sm_clock : Int
  processes : List String
  deriving DecidableEq

/-- The four buckets of detect_models output. -/
inductive Bucket where
  | llm
  | whisper
  | embedding
  | other
  deriving DecidableEq

/-- List-of-chars substring helper for the Python "pattern in name" test. -/
def startsWithChars : List Char → List Char → Bool
  | [], _ => true
  | _ :: _, [] => false
  | a :: as, b :: bs => a = b && startsWithChars as bs

/-- hasSub pat hay: pat occurs contiguously in hay (Python: pat in hay). -/
def hasSub (pat : List Char) : List Char → Bool
  | [] => pat.isEmpty
  | c :: t => startsWithChars pat (c :: t) || hasSub pat t

/-- Python "pat in hay" on strings. -/
def strContains (hay pat : String) : Bool := hasSub pat.data hay.data

/-- Python str.lower for the process name. -/
def toLowerStr (s : String) : String := String.mk (s.data.map Char.toLower)

/-- model_patterns["ollama"]. -/
def ollamaPatterns : List String := ["ollama", "llama", "mistral", "codellama"]

/-- model_patterns["whisper"]. -/
def whisperPatterns : List String := ["whisper", "stt"]

/-- model_patterns["embedding"]. -/
def embeddingPatterns : List String := ["embedding", "sentence"]

/-- model_patterns["python"]. -/
def pythonPatterns : List String := ["python.exe", "python3"]

/-- self.model_patterns, in its (insertion-ordered) dict iteration order. -/
def model_patterns : List (String × List String) :=
  [("ollama", ollamaPatterns), ("whisper", whisperPatterns),
   ("embedding", embeddingPatterns), ("python", pythonPatterns)]

/-- any(pattern in name_lower for pattern in patterns). -/
def matchesCat (nameLower : String) (patterns : List String) : Bool :=
  patterns.any (fun p => strContains nameLower p)

/-- The bucket a category name feeds in detect_models: ollama processes go to
llm, whisper to whisper, embedding to embedding, and everything else
(the python category) to other. -/
def bucketFor (cat : String) : Bucket :=
  if cat = "ollama" then .llm
  else if cat = "whisper" then .whisper
  else if cat = "embedding" then .embedding
  else .other

/-- The inner loop of detect_models on one process name: walk the pattern
categories in order, stop at the first whose keyword list matches (first
category wins); an unmatched process is assigned to other. -/
def classify : List (String × List String) → String → Bucket
  | [], _ => .other
  | (cat, patterns) :: rest, s =>
    if matchesCat s patterns then bucketFor cat else classify rest s

/-- detect_models classification of one process name (lowercased first). -/
def classifyProc (name : String) : Bucket := classify model_patterns (toLowerStr name)

/-- The detected dict of detect_models: four insertion-ordered buckets. -/
structure Detected where
  llm : List String
  whisper : List String
  embedding : List String
  other : List String
  deriving DecidableEq

/-- Projection of a Detected record by bucket. -/
def Detected.bucket (d : Detected) : Bucket → List String
  | .llm => d.llm
  | .whisper => d.whisper
  | .embedding => d.embedding
  | .other => d.other

/-- One step of the detect_models loop: append the process to the bucket
chosen by classifyProc. -/
def detectStep (d : Detected) (p : String) : Detected :=
  match classifyProc p with
  | .llm => { d with llm := d.llm ++ [p] }
  | .whisper => { d with whisper := d.whisper ++ [p] }
  | .embedding => { d with embedding := d.embedding ++ [p] }
  | .other => { d with other := d.other ++ [p] }

/-- detect_models: fold the loop body over the process list, starting from
four empty buckets. -/
def detect_models (procs : List String) : Detected :=
  procs.foldl detectStep { llm := [], whisper := [], embedding := [], other := [] }

/-- The recommendation strings of get_recommendations, as tags (the source
strings carry emoji prefixes; each constructor names one of them). -/
inductive Recommendation where
  /-- "VRAM critically high! Consider unloading unused models." -/
  | vramCritical
  /-- "VRAM usage is high. Unload unused models to free space." -/
  | vramHigh
  /-- "GPU temperature is very high! Check cooling." -/
  | tempCritical
  /-- "GPU temperature is elevated. Ensure good airflow." -/
  | tempHigh
  /-- "Power draw near limit. Performance may be throttled." -/
  | powerNearLimit
  /-- "GPU idle but VRAM in use. Consider unloading unused models." -/
  | idleVramInUse
  /-- "GPU operating normally" -/
  | normal
  deriving DecidableEq

/-- get_recommendations: the four independent threshold checks appended in
source order, falling back to the single normal entry when no check fires. -/
def get_recommendations (stats : GpuStats) : List Recommendation :=
  let vramRecs : List Recommendation :=
    if stats.vram_percent > 90 then [.vramCritical]
    else if stats.vram_percent > 75 then [.vramHigh]
    else []
  let tempRecs : List Recommendation :=
    if stats.temperature > 85 then [.tempCritical]
    else if stats.temperature > 80 then [.tempHigh]
    else []
  let powerRecs : List Recommendation :=
    if stats.power_draw > stats.power_limit * ((9 : ℚ) / 10) then [.powerNearLimit]
    else []
  let utilRecs : List Recommendation :=
    if stats.gpu_utilization < 10 ∧ stats.vram_used > 4000 then [.idleVramInUse]
    else []
  let recs := vramRecs ++ tempRecs ++ powerRecs ++ utilRecs
  if recs.isEmpty then [.normal] else recs

/-- The gpu_stats frame broadcast each tick: current snapshot, model buckets,
recommendations, and the last 60 history samples. -/
structure BroadcastMessage where
  current : GpuStats
  models : Detected
  recommendations : List Recommendation
  history : List GpuStats
  deriving DecidableEq

/-- Append to a collections.deque with maxlen cap: the oldest elements are
discarded from the left once the capacity is exceeded. -/
def dequeAppend (cap : Nat) (h : List GpuStats) (x : GpuStats) : List GpuStats :=
  let h' := h ++ [x]
  if cap < h'.length then h'.drop (h'.length - cap) else h'

/-- One iteration of monitor_loop given the sampling result (get_gpu_stats
returns None on failure because it catches its own exceptions). On a
snapshot: append to the 300-sample history, build the broadcast message
(history sliced to the last 60), and sleep 1 second. On None: fall through
the if-stats block - no append, no broadcast - and reach the same
asyncio.sleep(1). The 5-second sleep of the except branch runs only when an
exception propagates out of the iteration body, which a failed sample does
not do. Returns (new history, broadcast message if any, seconds slept). -/
def monitorIteration (history : List GpuStats) (sample : Option GpuStats) :
    List GpuStats × Option BroadcastMessage × Nat :=
  match sample with
  | some stats =>
    let history' := dequeAppend 300 history stats
    let message : BroadcastMessage :=
      { current := stats
        models := detect_models stats.processes
        recommendations := get_recommendations stats
        history := history'.drop (history'.length - 60) }
    (history', some message, 1)
  | none => (history, none, 1)

/-! ## Whisper /transcribe isFinal computation (src/whisper_server_fixed.py) -/

/-- The whitespace characters Python str.strip removes (ASCII range). -/
def isPySpace (c : Char) : Bool :=
  c = ' ' || c = '\t' || c = '\n' || c = '\r' || c = Char.ofNat 11 || c = Char.ofNat 12

/-- Python rawText.strip(). -/
def pyStrip (s : String) : String :=
  String.mk (((s.data.dropWhile isPySpace).reverse.dropWhile isPySpace).reverse)

/-- Python text.endswith(tuple of the one-char suffixes . ! ?): the last
character is one of them. -/
def endsSentence (s : String) : Bool :=
  match s.data.getLast? with
  | some c => c = '.' || c = '!' || c = '?'
  | none => false

/-- The fields of a successful /transcribe response that depend on the model
output. -/
structure TranscribeResponse where
  text : String
  language : String
  isFinal : Bool
  isPartial : Option Bool
  deriving DecidableEq

/-- The tail of the transcribe handler: text = result-text stripped;
is_final = text.endswith((. ! ?)) if text else False; isPartial = not
is_final, included only when the partial form field was true. -/
def transcribeResult (rawText : String) (language : String) (wantPartial : Bool) :
    TranscribeResponse :=
  let text := pyStrip rawText
  let isF := if text = "" then false else endsSentence text
  { text := text
    language := language
    isFinal := isF
    isPartial := if wantPartial then some (!isF) else none }

/-! ## Concrete instances used by witnesses and counterexamples -/

/-- A full Piper audio cache: 50 entries with distinct keys, timestamps 0..49. -/
def audioCache50 : AudioCache := (List.range 50).map (fun i => (toString i, [], i))

/-- A full vision cache: CACHE_SIZE = 1000 entries with distinct keys. -/
def visionCache1000 : List (String × Nat × Nat) :=
  (List.range 1000).map (fun i => (toString i, 0, 0))

/-- A concrete /tts request. -/
def ttsReqA : TtsRequest :=
  { text := "hello", speakerId := 0, lengthScale := 1, noiseScale := 1, noiseW := 1 }

/-- A concrete synthesizer stub producing a fixed WAV byte list. -/
def synthA : TtsRequest → Option (List Nat) := fun _ => some [7, 7]

/-- A snapshot with critically high VRAM (95 percent) and temperature (90). -/
def gpuStatsHot : GpuStats :=
  { timestamp := 0, name := "NVIDIA GeForce GTX 1080 Ti", gpu_id := 0,
    vram_total := 11264, vram_used := 10700, vram_free := 564, vram_percent := 95,
    gpu_utilization := 50, memory_utilization := 60, temperature := 90,
    power_draw := 100, power_limit := 250, graphics_clock := 1607,
    memory_clock := 5005, sm_clock := 1607, processes := [] }

/-- A snapshot crossing none of the recommendation thresholds. -/
def gpuStatsNormal : GpuStats :=
  { timestamp := 0, name := "NVIDIA GeForce GTX 1080 Ti", gpu_id := 0,
    vram_total := 11264, vram_used := 1000, vram_free := 10264, vram_percent := 9,
    gpu_utilization := 50, memory_utilization := 10, temperature := 70,
    power_draw := 100, power_limit := 250, graphics_clock := 1607,
    memory_clock := 5005, sm_clock := 1607, processes := [] }

/-! ## Association-list lemmas -/

theorem lookupD_dictSet_self {α : Type} (c : List (String × α)) (k : String) (v : α) :
    lookupD (dictSet c k v) k = some v := by
  induction c with
  | nil => simp [dictSet, lookupD]
  | cons e r ih =>
    by_cases h : e.1 = k
    · simp [dictSet, h, lookupD]
    · simp [dictSet, h, lookupD, ih]

theorem lookupD_dictSet_ne {α : Type} (c : List (String × α)) (k k' : String) (v : α)
    (h : k' ≠ k) : lookupD (dictSet c k v) k' = lookupD c k' := by
  induction c with
  | nil =>
    have h2 : ¬ k = k' := fun hh => h hh.symm
    simp [dictSet, lookupD, h2]
  | cons e r ih =>
    by_cases he : e.1 = k
    · have h2 : ¬ k = k' := fun hh => h hh.symm
      have h3 : ¬ e.1 = k' := by rw [he]; exact h2
      simp [dictSet, he, lookupD, h2, h3]
    · by_cases he' : e.1 = k'
      · simp [dictSet, he, lookupD, he', h]
      · simp [dictSet, he, lookupD, he', ih]

theorem dictSet_length_le {α : Type} (c : List (String × α)) (k : String) (v : α) :
    (dictSet c k v).length ≤ c.length + 1 := by
  induction c with
  | nil => simp [dictSet]
  | cons e r ih =>
    by_cases h : e.1 = k
    · simp [dictSet, h]
    · simp only [dictSet, h, if_false, List.length_cons]
      omega

theorem eraseKey_length_of_mem {α : Type} (c : List (String × α)) (k : String)
    (h : ∃ e ∈ c, e.1 = k) : (eraseKey c k).length + 1 = c.length := by
  induction c with
  | nil => simp at h
  | cons e r ih =>
    by_cases he : e.1 = k
    · simp [eraseKey, he]
    · obtain ⟨e', he', hk⟩ := h
      rcases List.mem_cons.mp he' with rfl | hmem
      · exact absurd hk he
      · simp only [eraseKey, he, if_false, List.length_cons]
        rw [← ih ⟨e', hmem, hk⟩]

theorem lookupD_eq_none_of_forall {α : Type} (c : List (String × α)) (k : String)
    (h : ∀ e ∈ c, e.1 ≠ k) : lookupD c k = none := by
  induction c with
  | nil => rfl
  | cons e r ih =>
    have h1 : e.1 ≠ k := h e (List.mem_cons_self _ _)
    simp only [lookupD, h1, if_false]
    exact ih (fun e' he' => h e' (List.mem_cons_of_mem _ he'))

theorem lookupD_eraseKey_self {α : Type} (c : List (String × α)) (k : String)
    (hnd : (c.map Prod.fst).Nodup) : lookupD (eraseKey c k) k = none := by
  induction c with
  | nil => rfl
  | cons e r ih =>
    rw [List.map_cons, List.nodup_cons] at hnd
    by_cases he : e.1 = k
    · simp only [eraseKey, he, if_true]
      refine lookupD_eq_none_of_forall _ _ (fun e' he' hk => hnd.1 ?_)
      rw [he, ← hk]
      exact List.mem_map_of_mem Prod.fst he'
    · simp only [eraseKey, he, if_false, lookupD]
      exact ih hnd.2

theorem head_eq_of_nodup_keys {α : Type} (e m : String × α) (r : List (String × α))
    (hnd : ((e :: r).map Prod.fst).Nodup) (hm : m ∈ e :: r) (hk : e.1 = m.1) : m = e := by
  rw [List.map_cons, List.nodup_cons] at hnd
  rcases List.mem_cons.mp hm with rfl | hmem
  · rfl
  · exact absurd (hk ▸ List.mem_map_of_mem Prod.fst hmem) hnd.1

theorem mem_eraseKey_of_ne {α : Type} (c : List (String × α)) (m : String × α)
    (hnd : (c.map Prod.fst).Nodup) (hm : m ∈ c) :
    ∀ e ∈ c, e ≠ m → e ∈ eraseKey c m.1 := by
  induction c with
  | nil => simp
  | cons x r ih =>
    intro e he hne
    by_cases hx : x.1 = m.1
    · have hxm : m = x := head_eq_of_nodup_keys x m r hnd hm hx
      simp only [eraseKey, hx, if_true]
      rcases List.mem_cons.mp he with rfl | hmem
      · exact absurd hxm.symm hne
      · exact hmem
    · simp only [eraseKey, hx, if_false]
      rcases List.mem_cons.mp he with rfl | hmem
      · exact List.mem_cons_self _ _
      · rw [List.map_cons, List.nodup_cons] at hnd
        have hmr : m ∈ r := by
          rcases List.mem_cons.mp hm with rfl | h2
          · exact absurd rfl hx
          · exact h2
        exact List.mem_cons_of_mem _ (ih hnd.2 hmr e hmem hne)

theorem mem_of_mem_eraseKey {α : Type} (c : List (String × α)) (k : String) :
    ∀ e ∈ eraseKey c k, e ∈ c := by
  induction c with
  | nil => simp [eraseKey]
  | cons x r ih =>
    intro e he
    by_cases hx : x.1 = k
    · simp only [eraseKey, hx, if_true] at he
      exact List.mem_cons_of_mem _ he
    · simp only [eraseKey, hx, if_false] at he
      rcases List.mem_cons.mp he with rfl | hmem
      · exact List.mem_cons_self _ _
      · exact List.mem_cons_of_mem _ (ih e hmem)

/-! ## minTs lemmas: the evicted entry exists and is globally oldest -/

theorem minTs_spec (c : AudioCache) (hne : c ≠ []) :
    ∃ m, minTs c = some m ∧ m ∈ c ∧ ∀ e ∈ c, m.2.2 ≤ e.2.2 := by
  induction c with
  | nil => exact absurd rfl hne
  | cons x r ih =>
    rcases hr : r with _ | ⟨y, r'⟩
    · refine ⟨x, ?_, List.mem_cons_self _ _, ?_⟩
      · simp [minTs]
      · intro e he
        rcases List.mem_cons.mp he with rfl | h2
        · exact le_refl _
        · simp at h2
    · obtain ⟨m, hm, hmem, hmin⟩ := ih (by simp [hr])
      rw [← hr] at *
      by_cases hle : x.2.2 ≤ m.2.2
      · refine ⟨x, ?_, List.mem_cons_self _ _, ?_⟩
        · simp only [minTs, hm, hle, if_true]
        · intro e he
          rcases List.mem_cons.mp he with rfl | h2
          · exact le_refl _
          · exact le_trans hle (hmin e h2)
      · refine ⟨m, ?_, List.mem_cons_of_mem _ hmem, ?_⟩
        · simp only [minTs, hm, hle, if_false]
        · intro e he
          rcases List.mem_cons.mp he with rfl | h2
          · exact le_of_lt (lt_of_not_le hle)
          · exact hmin e h2

/-! ## Lemmas about the encode_texts caching fold -/

theorem lookupD_foldIns_untouched {α : Type} (hkey : String → String) (enc : String → α) :
    ∀ (ts : List String) (c : List (String × α)) (k : String),
    (∀ t ∈ ts, hkey t ≠ k) →
    lookupD (ts.foldl (fun c t => dictSet c (hkey t) (enc t)) c) k = lookupD c k := by
  intro ts
  induction ts with
  | nil => intro c k _; rfl
  | cons t ts ih =>
    intro c k h
    simp only [List.foldl_cons]
    rw [ih _ _ (fun t' ht' => h t' (List.mem_cons_of_mem _ ht'))]
    exact lookupD_dictSet_ne _ _ _ _
      (fun hk => h t (List.mem_cons_self _ _) hk.symm)

theorem lookupD_foldIns_assigned {α : Type} (hkey : String → String) (enc : String → α) :
    ∀ (ts : List String) (c : List (String × α)) (t₀ : String),
    t₀ ∈ ts → (∀ t ∈ ts, hkey t = hkey t₀ → t = t₀) →
    lookupD (ts.foldl (fun c t => dictSet c (hkey t) (enc t)) c) (hkey t₀) = some (enc t₀) := by
  intro ts
  induction ts with
  | nil => intro c t₀ h; simp at h
  | cons t ts ih =>
    intro c t₀ hmem huniq
    simp only [List.foldl_cons]
    by_cases hrest : ∃ t' ∈ ts, hkey t' = hkey t₀
    · obtain ⟨t', ht', hk'⟩ := hrest
      have ht0 : t₀ ∈ ts := by
        have := huniq t' (List.mem_cons_of_mem _ ht') hk'
        rwa [← this]
      exact ih _ t₀ ht0 (fun t'' ht'' => huniq t'' (List.mem_cons_of_mem _ ht''))
    · push_neg at hrest
      have ht0 : t₀ = t := by
        rcases List.mem_cons.mp hmem with rfl | h2
        · rfl
        · exact absurd rfl (hrest t₀ h2)
      subst ht0
      rw [lookupD_foldIns_untouched hkey enc ts _ _ hrest]
      exact lookupD_dictSet_self _ _ _

theorem foldIns_length_le {α : Type} (hkey : String → String) (enc : String → α) :
    ∀ (ts : List String) (c : List (String × α)),
    (ts.foldl (fun c t => dictSet c (hkey t) (enc t)) c).length ≤ c.length + ts.length := by
  intro ts
  induction ts with
  | nil => intro c; simp
  | cons t ts ih =>
    intro c
    simp only [List.foldl_cons, List.length_cons]
    calc (ts.foldl (fun c t => dictSet c (hkey t) (enc t)) (dictSet c (hkey t) (enc t))).length
        ≤ (dictSet c (hkey t) (enc t)).length + ts.length := ih _
      _ ≤ (c.length + 1) + ts.length := by
          have := dictSet_length_le c (hkey t) (enc t)
          omega
      _ = c.length + (ts.length + 1) := by omega

theorem manageCache_length_le {α : Type} (c : List (String × α))
    (h : c.length ≤ CACHE_SIZE_LIMIT + 2000) : (manageCache c).length ≤ CACHE_SIZE_LIMIT := by
  unfold manageCache CACHE_SIZE_LIMIT at *
  by_cases hlen : 10000 < c.length
  · rw [if_pos hlen]
    simp only [List.length_drop]
    omega
  · rw [if_neg hlen]
    omega

/-! ## Small generic list helpers -/

theorem filter_eq_nil_of_forall_false {β : Type} (p : β → Bool) :
    ∀ (l : List β), (∀ a ∈ l, p a = false) → l.filter p = [] := by
  intro l
  induction l with
  | nil => intro _; rfl
  | cons a l ih =>
    intro h
    rw [List.filter_cons, h a (List.mem_cons_self _ _)]
    exact ih (fun a' ha' => h a' (List.mem_cons_of_mem _ ha'))

theorem map_congr_mem {β γ : Type} (f g : β → γ) :
    ∀ (l : List β), (∀ a ∈ l, f a = g a) → l.map f = l.map g := by
  intro l
  induction l with
  | nil => intro _; rfl
  | cons a l ih =>
    intro h
    simp only [List.map_cons]
    rw [h a (List.mem_cons_self _ _), ih (fun a' ha' => h a' (List.mem_cons_of_mem _ ha'))]

/-! ## encode_texts with use_cache=True: unfolded form and repeat-request lemma -/

theorem encodeTexts_true_eq {α : Type} (hkey : String → String) (enc : String → α)
    (cache : List (String × α)) (texts : List String) :
    encodeTexts hkey enc cache texts true =
      if (texts.filter (fun t => (lookupD cache (hkey t)).isNone)).isEmpty then
        (texts.map (fun t => match lookupD cache (hkey t) with | some v => v | none => enc t),
         cache, ([] : List String))
      else
        (texts.map (fun t => match lookupD cache (hkey t) with | some v => v | none => enc t),
         manageCache ((texts.filter (fun t => (lookupD cache (hkey t)).isNone)).foldl
           (fun c t => dictSet c (hkey t) (enc t)) cache),
         texts.filter (fun t => (lookupD cache (hkey t)).isNone)) := by
  cases hS : (texts.filter (fun t => (lookupD cache (hkey t)).isNone)).isEmpty <;>
    simp [encodeTexts, hS]

theorem encode_repeat {α : Type} (hkey : String → String) (enc : String → α)
    (cache : List (String × α)) (texts : List String)
    (hinj : ∀ t₁ ∈ texts, ∀ t₂ ∈ texts, hkey t₁ = hkey t₂ → t₁ = t₂)
    (hn : cache.length + texts.length ≤ CACHE_SIZE_LIMIT) :
    encodeTexts hkey enc (encodeTexts hkey enc cache texts true).2.1 texts true =
      ((encodeTexts hkey enc cache texts true).1,
       (encodeTexts hkey enc cache texts true).2.1, ([] : List String)) := by
  have heq := encodeTexts_true_eq hkey enc cache texts
  by_cases hS : (texts.filter (fun t => (lookupD cache (hkey t)).isNone)).isEmpty
  · rw [if_pos hS] at heq
    rw [heq, encodeTexts_true_eq, hS]
    simp
  · rw [if_neg hS] at heq
    have hsentlen : (texts.filter (fun t => (lookupD cache (hkey t)).isNone)).length ≤
        texts.length := List.length_filter_le _ _
    have hlen : ((texts.filter (fun t => (lookupD cache (hkey t)).isNone)).foldl
        (fun c t => dictSet c (hkey t) (enc t)) cache).length ≤ CACHE_SIZE_LIMIT := by
      have := foldIns_length_le hkey enc
        (texts.filter (fun t => (lookupD cache (hkey t)).isNone)) cache
      omega
    have h10 : CACHE_SIZE_LIMIT = 10000 := rfl
    have hman : manageCache ((texts.filter (fun t => (lookupD cache (hkey t)).isNone)).foldl
        (fun c t => dictSet c (hkey t) (enc t)) cache) =
        (texts.filter (fun t => (lookupD cache (hkey t)).isNone)).foldl
        (fun c t => dictSet c (hkey t) (enc t)) cache := by
      unfold manageCache
      rw [if_neg (by omega)]
    rw [hman] at heq
    have hlook : ∀ t ∈ texts,
        lookupD ((texts.filter (fun t => (lookupD cache (hkey t)).isNone)).foldl
          (fun c t => dictSet c (hkey t) (enc t)) cache) (hkey t) =
        some (match lookupD cache (hkey t) with | some v => v | none => enc t) := by
      intro t ht
      cases hx : lookupD cache (hkey t) with
      | some v =>
        have huntouched : ∀ t' ∈ texts.filter (fun t => (lookupD cache (hkey t)).isNone),
            hkey t' ≠ hkey t := by
          intro t' ht' hk
          have hmem := List.mem_filter.mp ht'
          rw [hk, hx] at hmem
          simp at hmem
        rw [lookupD_foldIns_untouched hkey enc _ _ _ huntouched, hx]
      | none =>
        have htS : t ∈ texts.filter (fun t => (lookupD cache (hkey t)).isNone) :=
          List.mem_filter.mpr ⟨ht, by rw [hx]; rfl⟩
        have huniq : ∀ t' ∈ texts.filter (fun t => (lookupD cache (hkey t)).isNone),
            hkey t' = hkey t → t' = t := by
          intro t' ht' hk
          exact hinj t' (List.mem_filter.mp ht').1 t ht hk
        rw [lookupD_foldIns_assigned hkey enc _ _ _ htS huniq]
    have hsent2 : texts.filter (fun t =>
        (lookupD ((texts.filter (fun t => (lookupD cache (hkey t)).isNone)).foldl
          (fun c t => dictSet c (hkey t) (enc t)) cache) (hkey t)).isNone) = [] := by
      refine filter_eq_nil_of_forall_false _ _ (fun t ht => ?_)
      rw [hlook t ht]
      rfl
    have hres2 : texts.map (fun t =>
        match lookupD ((texts.filter (fun t => (lookupD cache (hkey t)).isNone)).foldl
          (fun c t => dictSet c (hkey t) (enc t)) cache) (hkey t) with
        | some v => v
        | none => enc t) =
        texts.map (fun t => match lookupD cache (hkey t) with | some v => v | none => enc t) := by
      refine map_congr_mem _ _ _ (fun t ht => ?_)
      rw [hlook t ht]
    rw [heq]
    rw [encodeTexts_true_eq]
    simp only [hsent2, List.isEmpty_nil, if_true, hres2]

/-! ## Piper repeat-request lemma -/

theorem lookupD_addToCache_self (c : AudioCache) (k : String) (d : List Nat) (now : Nat) :
    lookupD (addToCache c k d now) k = some (d, now) := by
  unfold addToCache
  exact lookupD_dictSet_self _ _ _

theorem tts_repeat (cache : AudioCache) (synth : TtsRequest → Option (List Nat))
    (r : TtsRequest) (t₁ t₂ : Nat) (a : List Nat) (c₁ : AudioCache)
    (h1 : handleTts cache synth r t₁ = (.ok a, c₁, 1))
    (h2 : t₂ - t₁ < CACHE_TTL_SECONDS) :
    handleTts c₁ synth r t₂ = (.ok a, c₁, 0) := by
  unfold handleTts at h1 ⊢
  by_cases ht : r.text = ""
  · rw [if_pos ht] at h1
    simp at h1
  · rw [if_neg ht] at h1 ⊢
    rcases hg : getFromCache cache (reqKey r) t₁ with ⟨o, c'⟩
    rw [hg] at h1
    match o with
    | some d => simp at h1
    | none =>
      cases hs : synth r with
      | none => rw [hs] at h1; simp at h1
      | some audio =>
        rw [hs] at h1
        simp only [Prod.mk.injEq, TtsResponse.ok.injEq] at h1
        obtain ⟨ha, hc, -⟩ := h1
        have hl : lookupD c₁ (reqKey r) = some (audio, t₁) := by
          rw [← hc]
          exact lookupD_addToCache_self _ _ _ _
        rw [← ha]
        simp [getFromCache, hl, h2]

/-! ## detect_models fold lemmas -/

theorem detectStep_bucket (d : Detected) (p : String) (b : Bucket) :
    (detectStep d p).bucket b =
      if classifyProc p = b then d.bucket b ++ [p] else d.bucket b := by
  cases hc : classifyProc p <;> cases b <;>
    simp [detectStep, hc, Detected.bucket]

theorem detect_foldl_bucket :
    ∀ (procs : List String) (d : Detected) (b : Bucket),
    (procs.foldl detectStep d).bucket b =
      d.bucket b ++ procs.filter (fun p => decide (classifyProc p = b)) := by
  intro procs
  induction procs with
  | nil => intro d b; simp
  | cons p procs ih =>
    intro d b
    simp only [List.foldl_cons, List.filter_cons]
    rw [ih (detectStep d p) b, detectStep_bucket]
    by_cases hc : classifyProc p = b
    · simp [hc]
    · simp [hc]

theorem detect_models_bucket (procs : List String) (b : Bucket) :
    (detect_models procs).bucket b =
      procs.filter (fun p => decide (classifyProc p = b)) := by
  unfold detect_models
  rw [detect_foldl_bucket]
  cases b <;> simp [Detected.bucket]

theorem bucket_filter_length_sum :
    ∀ procs : List String,
    (procs.filter (fun p => decide (classifyProc p = Bucket.llm))).length +
    (procs.filter (fun p => decide (classifyProc p = Bucket.whisper))).length +
    (procs.filter (fun p => decide (classifyProc p = Bucket.embedding))).length +
    (procs.filter (fun p => decide (classifyProc p = Bucket.other))).length =
    procs.length := by
  intro procs
  induction procs with
  | nil => rfl
  | cons p procs ih =>
    simp only [List.filter_cons, List.length_cons]
    cases hc : classifyProc p <;> simp [hc] <;> omega

/-! ## classify chain lemmas -/

theorem classifyProc_of_ollama (p : String)
    (h : matchesCat (toLowerStr p) ollamaPatterns = true) :
    classifyProc p = Bucket.llm := by
  unfold classifyProc model_patterns
  simp only [classify, h, if_true]
  decide

theorem classifyProc_of_whisper (p : String)
    (h1 : matchesCat (toLowerStr p) ollamaPatterns = false)
    (h2 : matchesCat (toLowerStr p) whisperPatterns = true) :
    classifyProc p = Bucket.whisper := by
  unfold classifyProc model_patterns
  simp only [classify, h1, h2, Bool.false_eq_true, if_false, if_true]
  decide

theorem classifyProc_of_embedding (p : String)
    (h1 : matchesCat (toLowerStr p) ollamaPatterns = false)
    (h2 : matchesCat (toLowerStr p) whisperPatterns = false)
    (h3 : matchesCat (toLowerStr p) embeddingPatterns = true) :
    classifyProc p = Bucket.embedding := by
  unfold classifyProc model_patterns
  simp only [classify, h1, h2, h3, Bool.false_eq_true, if_false, if_true]
  decide

theorem classifyProc_of_no_model_match (p : String)
    (h1 : matchesCat (toLowerStr p) ollamaPatterns = false)
    (h2 : matchesCat (toLowerStr p) whisperPatterns = false)
    (h3 : matchesCat (toLowerStr p) embeddingPatterns = false) :
    classifyProc p = Bucket.other := by
  unfold classifyProc model_patterns
  simp only [classify, h1, h2, h3, Bool.false_eq_true, if_false]
  cases hp : matchesCat (toLowerStr p) pythonPatterns
  · simp [classify, hp]
  · simp only [hp, if_true]
    decide

/-! ## Membership helper for get_recommendations -/

theorem mem_ite_isEmpty {γ : Type} (a : γ) (l fb : List γ) (h : a ∈ l) :
    a ∈ (if l.isEmpty then fb else l) := by
  cases l with
  | nil => simp at h
  | cons x r => simpa using h

/-! ## Claim theorems -/

/-- C3: for the TTS audio cache with ttl_seconds = 300, a get of key k at time
now, where the entry for k is stored with timestamp T, returns the stored
value as a hit (leaving the cache as is) when now - T < 300, and returns a
miss and deletes the entry when now - T >= 300. -/
theorem c3_tts_cache_ttl (c : AudioCache) (k : String) (now : Nat) (d : List Nat) (T : Nat)
    (hl : lookupD c k = some (d, T)) :
    (now - T < CACHE_TTL_SECONDS → getFromCache c k now = (some d, c)) ∧
    (CACHE_TTL_SECONDS ≤ now - T →
      getFromCache c k now = (none, eraseKey c k) ∧
      ((c.map Prod.fst).Nodup → lookupD (eraseKey c k) k = none)) := by
  constructor
  · intro h
    simp [getFromCache, hl, h]
  · intro h
    have hlt : ¬ (now - T < CACHE_TTL_SECONDS) := not_lt.mpr h
    exact ⟨by simp [getFromCache, hl, hlt], fun hnd => lookupD_eraseKey_self c k hnd⟩

/-- C3 witness: one hit at age 299 and one expiring miss at age 300 on a
concrete one-entry cache. -/
theorem c3_tts_cache_ttl_witness :
    getFromCache [("k", ([2], 0))] "k" 299 = (some [2], [("k", ([2], 0))]) ∧
    getFromCache [("k", ([2], 0))] "k" 300 = (none, eraseKey [("k", ([2], 0))] "k") ∧
    lookupD (eraseKey [("k", ([2], 0))] "k") "k" = none :=
  ⟨(c3_tts_cache_ttl [("k", ([2], 0))] "k" 299 [2] 0 (by decide)).1 (by decide),
   ((c3_tts_cache_ttl [("k", ([2], 0))] "k" 300 [2] 0 (by decide)).2 (by decide)).1,
   ((c3_tts_cache_ttl [("k", ([2], 0))] "k" 300 [2] 0 (by decide)).2 (by decide)).2 (by decide)⟩

/-- C8: a get on the TTS audio cache that hits (entry present and younger
than the TTL) returns the cache unchanged - the very same association list,
so no timestamp, value, position or other entry differs. -/
theorem c8_read_no_mutation (c : AudioCache) (k : String) (now : Nat) (d : List Nat) (T : Nat)
    (hl : lookupD c k = some (d, T)) (h : now - T < CACHE_TTL_SECONDS) :
    getFromCache c k now = (some d, c) := by
  simp [getFromCache, hl, h]

/-- C8 witness: a concrete hit leaves a two-entry cache untouched. -/
theorem c8_read_no_mutation_witness :
    getFromCache [("a", ([1], 5)), ("b", ([2], 6))] "a" 10 =
      (some [1], [("a", ([1], 5)), ("b", ([2], 6))]) :=
  c8_read_no_mutation [("a", ([1], 5)), ("b", ([2], 6))] "a" 10 [1] 5 (by decide) (by decide)

/-- C6: when the TTS audio cache holds at least CACHE_MAX_SIZE = 50 entries,
_add_to_cache removes exactly one entry - one whose stored timestamp is
globally minimal (the first such in insertion order) - and then inserts the
new entry; below capacity it removes nothing. -/
theorem c6_oldest_evicted (c : AudioCache) (k : String) (d : List Nat) (now : Nat)
    (hnd : (c.map Prod.fst).Nodup) :
    (c.length < CACHE_MAX_SIZE → addToCache c k d now = dictSet c k (d, now)) ∧
    (CACHE_MAX_SIZE ≤ c.length → ∃ m,
      minTs c = some m ∧ m ∈ c ∧ (∀ e ∈ c, m.2.2 ≤ e.2.2) ∧
      addToCache c k d now = dictSet (eraseKey c m.1) k (d, now) ∧
      (eraseKey c m.1).length + 1 = c.length ∧
      (∀ e ∈ c, e ≠ m → e ∈ eraseKey c m.1) ∧
      (∀ e ∈ eraseKey c m.1, e ∈ c)) := by
  constructor
  · intro h
    unfold addToCache
    rw [if_neg (not_le.mpr h)]
  · intro h
    have hne : c ≠ [] := by
      intro hc
      rw [hc] at h
      simp [CACHE_MAX_SIZE] at h
    obtain ⟨m, hm, hmem, hmin⟩ := minTs_spec c hne
    refine ⟨m, hm, hmem, hmin, ?_, ?_, ?_, ?_⟩
    · unfold addToCache
      rw [if_pos h, hm]
    · exact eraseKey_length_of_mem c m.1 ⟨m, hmem, rfl⟩
    · exact mem_eraseKey_of_ne c m hnd hmem
    · exact mem_of_mem_eraseKey c m.1

/-- C6 witness: below capacity nothing is evicted; on a concrete full
50-entry cache the oldest entry is evicted before the insert. -/
theorem c6_oldest_evicted_witness :
    (addToCache [("a", ([], 0))] "b" [] 5 = dictSet [("a", ([], 0))] "b" ([], 5)) ∧
    (∃ m, minTs audioCache50 = some m ∧ m ∈ audioCache50 ∧
      (∀ e ∈ audioCache50, m.2.2 ≤ e.2.2) ∧
      addToCache audioCache50 "new" [9] 99 = dictSet (eraseKey audioCache50 m.1) "new" ([9], 99) ∧
      (eraseKey audioCache50 m.1).length + 1 = audioCache50.length ∧
      (∀ e ∈ audioCache50, e ≠ m → e ∈ eraseKey audioCache50 m.1) ∧
      (∀ e ∈ eraseKey audioCache50 m.1, e ∈ audioCache50)) :=
  ⟨(c6_oldest_evicted [("a", ([], 0))] "b" [] 5 (by decide)).1 (by decide),
   (c6_oldest_evicted audioCache50 "new" [9] 99 (by decide)).2 (by decide)⟩

set_option maxRecDepth 100000

/-- C1 counterexample: the vision image-embedding cache has a configured size
CACHE_SIZE = 1000, yet embed_image inserts without any eviction: from a cache
already holding 1000 entries, one more insertion leaves 1001 stored entries,
exceeding the configured maximum. -/
theorem c1_vision_cache_unbounded :
    visionCache1000.length = CACHE_SIZE ∧
    ((visionEmbedImage (fun s => s) (fun _ => (0 : Nat)) visionCache1000 "img" true 0).2).length =
      CACHE_SIZE + 1 := by
  constructor
  · decide
  · decide

/-- C1 (amended): the TTS audio cache stays within CACHE_MAX_SIZE = 50 across
_add_to_cache, and the text-embedding cache stays within CACHE_SIZE_LIMIT =
10000 across the caching step of encode_texts (insert the missing texts, then
manage_cache) for request batches within the endpoint cap of 1000 texts; the
vision cache has no such bound (see the counterexample). -/
theorem c1_cache_bounds_amended :
    (∀ (c : AudioCache) (k : String) (d : List Nat) (now : Nat),
        c.length ≤ CACHE_MAX_SIZE → (addToCache c k d now).length ≤ CACHE_MAX_SIZE) ∧
    (∀ (α : Type) (hkey : String → String) (enc : String → α)
        (cache : List (String × α)) (texts : List String),
        cache.length ≤ CACHE_SIZE_LIMIT → texts.length ≤ 1000 →
        ((encodeTexts hkey enc cache texts true).2.1).length ≤ CACHE_SIZE_LIMIT) := by
  constructor
  · intro c k d now h
    unfold addToCache
    by_cases hc : CACHE_MAX_SIZE ≤ c.length
    · rw [if_pos hc]
      have hne : c ≠ [] := by
        intro hcc
        rw [hcc] at hc
        simp [CACHE_MAX_SIZE] at hc
      obtain ⟨m, hm, hmem, -⟩ := minTs_spec c hne
      rw [hm]
      have he : (eraseKey c m.1).length + 1 = c.length :=
        eraseKey_length_of_mem c m.1 ⟨m, hmem, rfl⟩
      have hd := dictSet_length_le (eraseKey c m.1) k (d, now)
      show (dictSet (eraseKey c m.1) k (d, now)).length ≤ CACHE_MAX_SIZE
      omega
    · rw [if_neg hc]
      have hd := dictSet_length_le c k (d, now)
      show (dictSet c k (d, now)).length ≤ CACHE_MAX_SIZE
      omega
  · intro α hkey enc cache texts hc ht
    rw [encodeTexts_true_eq]
    by_cases hS : (texts.filter (fun t => (lookupD cache (hkey t)).isNone)).isEmpty
    · rw [if_pos hS]
      exact hc
    · rw [if_neg hS]
      refine manageCache_length_le _ ?_
      have h1 := foldIns_length_le hkey enc
        (texts.filter (fun t => (lookupD cache (hkey t)).isNone)) cache
      have h2 : (texts.filter (fun t => (lookupD cache (hkey t)).isNone)).length ≤
          texts.length := List.length_filter_le _ _
      omega

/-- C1 witness: concrete insertions into the audio and embedding caches stay
within their bounds. -/
theorem c1_cache_bounds_witness :
    (addToCache [] "k" [3] 0).length ≤ CACHE_MAX_SIZE ∧
    ((encodeTexts (fun s => s) (fun _ => (0 : Nat)) [] ["a"] true).2.1).length ≤
      CACHE_SIZE_LIMIT :=
  ⟨c1_cache_bounds_amended.1 [] "k" [3] 0 (by decide),
   c1_cache_bounds_amended.2 Nat (fun s => s) (fun _ => 0) [] ["a"] (by decide) (by decide)⟩

/-- C2 counterexample: when get_gpu_stats produces no snapshot, the monitor
loop iteration skips the history append and the broadcast but then reaches
the same asyncio.sleep(1) as a successful tick: it waits 1 second, not the
5-second backoff claimed (the 5-second sleep belongs to the except branch,
which a None sample never reaches). -/
theorem c2_no_backoff_on_failed_sample :
    monitorIteration [] none = ([], none, 1) ∧ (1 : Nat) ≠ 5 := ⟨rfl, by decide⟩

/-- C2 (amended): when sampling fails (no snapshot), the iteration skips the
history append and the broadcast without crashing and waits the normal
1-second interval; the 5x backoff runs only when an exception escapes the
iteration body, which a failed sample does not cause. -/
theorem c2_sampling_failure_skips_tick (history : List GpuStats) :
    monitorIteration history none = (history, none, 1) := rfl

/-- C5: get_recommendations emits the critical VRAM warning above 90 percent,
the critical temperature warning above 85, both together when both thresholds
are crossed (the checks are independent), and exactly the single normal
status when no threshold is crossed. -/
theorem c5_recommendation_thresholds (s : GpuStats) :
    (s.vram_percent > 90 → Recommendation.vramCritical ∈ get_recommendations s) ∧
    (s.temperature > 85 → Recommendation.tempCritical ∈ get_recommendations s) ∧
    (s.vram_percent > 90 → s.temperature > 85 →
      Recommendation.vramCritical ∈ get_recommendations s ∧
      Recommendation.tempCritical ∈ get_recommendations s) ∧
    (s.vram_percent ≤ 75 → s.temperature ≤ 80 →
      s.power_draw ≤ s.power_limit * ((9 : ℚ) / 10) →
      ¬(s.gpu_utilization < 10 ∧ s.vram_used > 4000) →
      get_recommendations s = [Recommendation.normal]) := by
  have hvram : ∀ h : s.vram_percent > 90,
      Recommendation.vramCritical ∈ get_recommendations s := by
    intro h
    simp only [get_recommendations]
    refine mem_ite_isEmpty _ _ _ ?_
    rw [if_pos h]
    simp
  have htemp : ∀ h : s.temperature > 85,
      Recommendation.tempCritical ∈ get_recommendations s := by
    intro h
    simp only [get_recommendations]
    refine mem_ite_isEmpty _ _ _ ?_
    rw [if_pos h]
    simp
  refine ⟨hvram, htemp, fun h1 h2 => ⟨hvram h1, htemp h2⟩, ?_⟩
  intro h1 h2 h3 h4
  have hv1 : ¬ (90 : ℚ) < s.vram_percent := not_lt.mpr (h1.trans (by norm_num))
  have hv2 : ¬ (75 : ℚ) < s.vram_percent := not_lt.mpr h1
  have ht1 : ¬ (85 : ℤ) < s.temperature := not_lt.mpr (h2.trans (by norm_num))
  have ht2 : ¬ (80 : ℤ) < s.temperature := not_lt.mpr h2
  have hp : ¬ s.power_limit * ((9 : ℚ) / 10) < s.power_draw := not_lt.mpr h3
  simp [get_recommendations, hv1, hv2, ht1, ht2, hp, h4]

/-- C5 witness: a hot snapshot yields both critical warnings; a normal
snapshot yields exactly the single normal entry. -/
theorem c5_recommendation_thresholds_witness :
    (Recommendation.vramCritical ∈ get_recommendations gpuStatsHot ∧
     Recommendation.tempCritical ∈ get_recommendations gpuStatsHot) ∧
    get_recommendations gpuStatsNormal = [Recommendation.normal] :=
  ⟨(c5_recommendation_thresholds gpuStatsHot).2.2.1 (by decide) (by decide),
   (c5_recommendation_thresholds gpuStatsNormal).2.2.2 (by decide) (by decide)
     (by norm_num [gpuStatsNormal]) (by decide)⟩

/-- C7: a POST /embed whose texts field is a list of more than 1000 texts is
rejected with a 400 client error; the rejection sends nothing to the model
and leaves the embedding cache exactly as it was. -/
theorem c7_oversized_batch_rejected {α : Type} (hkey : String → String) (enc : String → α)
    (cache : List (String × α)) (l : List String) (useCache : Bool)
    (h : 1000 < l.length) :
    embedHandler hkey enc cache (some (.arr l)) useCache =
      (.failure 400 "Too many texts (max 1000)", cache, []) := by
  simp [embedHandler, h]

/-- C7 witness: a concrete 1001-text batch is rejected with the cache
untouched and the model never invoked. -/
theorem c7_oversized_batch_rejected_witness :
    embedHandler (fun s => s) (fun s => s.length) ([("k", 1)] : List (String × Nat))
      (some (TextsField.arr (List.replicate 1001 "x"))) true =
      (.failure 400 "Too many texts (max 1000)", [("k", 1)], []) :=
  c7_oversized_batch_rejected (fun s => s) (fun s => s.length) [("k", 1)]
    (List.replicate 1001 "x") true (by rw [List.length_replicate]; omega)

/-- C9: in the /transcribe response, isFinal is true exactly when the
whitespace-stripped transcription is nonempty and its last character is one
of . ! ?; an empty stripped transcription gives isFinal = false; and when
partial=true was requested, the isPartial field is the negation of isFinal. -/
theorem c9_isfinal_semantics (raw language : String) (wantPartial : Bool) :
    ((transcribeResult raw language wantPartial).isFinal = true ↔
      (pyStrip raw ≠ "" ∧ endsSentence (pyStrip raw) = true)) ∧
    (pyStrip raw = "" → (transcribeResult raw language wantPartial).isFinal = false) ∧
    (wantPartial = true →
      (transcribeResult raw language wantPartial).isPartial =
        some (!(transcribeResult raw language wantPartial).isFinal)) := by
  refine ⟨?_, ?_, ?_⟩
  · by_cases h : pyStrip raw = "" <;> simp [transcribeResult, h]
  · intro h
    simp [transcribeResult, h]
  · intro h
    simp [transcribeResult, h]

/-- C9 witness: a sentence ending in a period is final, a whitespace-only
transcription is not, and isPartial is reported as the negation of isFinal. -/
theorem c9_isfinal_semantics_witness :
    (transcribeResult " Hello there. " "en" false).isFinal = true ∧
    (transcribeResult "   " "en" false).isFinal = false ∧
    (transcribeResult " Hello there " "en" true).isPartial = some true := by
  refine ⟨(c9_isfinal_semantics " Hello there. " "en" false).1.mpr ⟨by decide, by decide⟩,
    (c9_isfinal_semantics "   " "en" false).2.1 (by decide),
    ((c9_isfinal_semantics " Hello there " "en" true).2.2 rfl).trans (by decide)⟩

/-- C10: detect_models partitions its input - the four buckets are the
filters of the input along the classification of each process name, so every
process lands in exactly one bucket and the bucket sizes sum to the input
size; classification walks the pattern categories in the fixed order ollama,
whisper, embedding, python over lowercase substring matches with the first
match winning; and a process matching only the python category, or no
category, lands in other. -/
theorem c10_detect_models_partition :
    (∀ procs : List String,
      (detect_models procs).llm.length + (detect_models procs).whisper.length +
        (detect_models procs).embedding.length + (detect_models procs).other.length =
        procs.length) ∧
    (∀ procs : List String,
      (detect_models procs).llm =
        procs.filter (fun p => decide (classifyProc p = Bucket.llm)) ∧
      (detect_models procs).whisper =
        procs.filter (fun p => decide (classifyProc p = Bucket.whisper)) ∧
      (detect_models procs).embedding =
        procs.filter (fun p => decide (classifyProc p = Bucket.embedding)) ∧
      (detect_models procs).other =
        procs.filter (fun p => decide (classifyProc p = Bucket.other))) ∧
    (∀ p : String, matchesCat (toLowerStr p) ollamaPatterns = true →
      classifyProc p = Bucket.llm) ∧
    (∀ p : String, matchesCat (toLowerStr p) ollamaPatterns = false →
      matchesCat (toLowerStr p) whisperPatterns = true →
      classifyProc p = Bucket.whisper) ∧
    (∀ p : String, matchesCat (toLowerStr p) ollamaPatterns = false →
      matchesCat (toLowerStr p) whisperPatterns = false →
      matchesCat (toLowerStr p) embeddingPatterns = true →
      classifyProc p = Bucket.embedding) ∧
    (∀ p : String, matchesCat (toLowerStr p) ollamaPatterns = false →
      matchesCat (toLowerStr p) whisperPatterns = false →
      matchesCat (toLowerStr p) embeddingPatterns = false →
      classifyProc p = Bucket.other) := by
  have hbuckets : ∀ procs : List String,
      (detect_models procs).llm =
        procs.filter (fun p => decide (classifyProc p = Bucket.llm)) ∧
      (detect_models procs).whisper =
        procs.filter (fun p => decide (classifyProc p = Bucket.whisper)) ∧
      (detect_models procs).embedding =
        procs.filter (fun p => decide (classifyProc p = Bucket.embedding)) ∧
      (detect_models procs).other =
        procs.filter (fun p => decide (classifyProc p = Bucket.other)) := by
    intro procs
    exact ⟨detect_models_bucket procs Bucket.llm, detect_models_bucket procs Bucket.whisper,
      detect_models_bucket procs Bucket.embedding, detect_models_bucket procs Bucket.other⟩
  refine ⟨?_, hbuckets, classifyProc_of_ollama, classifyProc_of_whisper,
    classifyProc_of_embedding, classifyProc_of_no_model_match⟩
  intro procs
  obtain ⟨hl, hw, he, ho⟩ := hbuckets procs
  rw [hl, hw, he, ho]
  exact bucket_filter_length_sum procs

/-- C10 witness: concrete classifications (first category wins, python-only
goes to other) and a concrete partitioned process list. -/
theorem c10_detect_models_partition_witness :
    classifyProc "OLLAMA.exe" = Bucket.llm ∧
    classifyProc "python3" = Bucket.other ∧
    classifyProc "my-whisper-stt.exe" = Bucket.whisper ∧
    (detect_models ["ollama.exe", "python3", "svchost"]).llm.length +
      (detect_models ["ollama.exe", "python3", "svchost"]).whisper.length +
      (detect_models ["ollama.exe", "python3", "svchost"]).embedding.length +
      (detect_models ["ollama.exe", "python3", "svchost"]).other.length = 3 :=
  ⟨c10_detect_models_partition.2.2.1 "OLLAMA.exe" (by decide),
   c10_detect_models_partition.2.2.2.2.2 "python3" (by decide) (by decide) (by decide),
   c10_detect_models_partition.2.2.2.1 "my-whisper-stt.exe" (by decide) (by decide),
   c10_detect_models_partition.1 ["ollama.exe", "python3", "svchost"]⟩

/-- C4: re-issuing a request with identical parameters is served from the
cache with output identical to the first response and no second invocation of
the external model. For /tts: if a first request invoked the Piper binary
(invocation count 1) and answered 200 with audio a, the same request within
the TTL of the stored entry answers the same bytes a with zero binary
invocations and an unchanged cache. For encode_texts with use_cache: after
any call whose key fingerprints are collision-free on the batch and whose
insertions stay within the cache limit (so manage_cache does not prune),
repeating the same batch returns the identical embedding list, leaves the
cache unchanged, and sends no text to the encoder. -/
theorem c4_identical_request_cached :
    (∀ (cache : AudioCache) (synth : TtsRequest → Option (List Nat)) (r : TtsRequest)
        (t₁ t₂ : Nat) (a : List Nat) (c₁ : AudioCache),
        handleTts cache synth r t₁ = (.ok a, c₁, 1) →
        t₂ - t₁ < CACHE_TTL_SECONDS →
        handleTts c₁ synth r t₂ = (.ok a, c₁, 0)) ∧
    (∀ (α : Type) (hkey : String → String) (enc : String → α)
        (cache : List (String × α)) (texts : List String),
        (∀ t₁ ∈ texts, ∀ t₂ ∈ texts, hkey t₁ = hkey t₂ → t₁ = t₂) →
        cache.length + texts.length ≤ CACHE_SIZE_LIMIT →
        encodeTexts hkey enc (encodeTexts hkey enc cache texts true).2.1 texts true =
          ((encodeTexts hkey enc cache texts true).1,
           (encodeTexts hkey enc cache texts true).2.1, ([] : List String))) :=
  ⟨tts_repeat, fun α => @encode_repeat α⟩

/-- C4 witness: a concrete repeated /tts request is served from the cache
byte-identically with zero synthesizer calls, and a concrete repeated
two-text batch is answered from the embedding cache with nothing sent to the
encoder. -/
theorem c4_identical_request_cached_witness :
    handleTts [(reqKey ttsReqA, ([7, 7], 0))] synthA ttsReqA 10 =
      (TtsResponse.ok [7, 7], [(reqKey ttsReqA, ([7, 7], 0))], 0) ∧
    encodeTexts (fun s => s) (fun s => s.length)
        ((encodeTexts (fun s => s) (fun s => s.length) [] ["a", "bb"] true).2.1)
        ["a", "bb"] true =
      ((encodeTexts (fun s => s) (fun s => s.length) [] ["a", "bb"] true).1,
       (encodeTexts (fun s => s) (fun s => s.length) [] ["a", "bb"] true).2.1, []) :=
  ⟨c4_identical_request_cached.1 [] synthA ttsReqA 0 10 [7, 7]
      [(reqKey ttsReqA, ([7, 7], 0))] (by decide) (by decide),
   c4_identical_request_cached.2 Nat (fun s => s) (fun s => s.length) [] ["a", "bb"]
      (by decide) (by decide)⟩
